import Mathlib

/-!
Shallow embedding of `src/code.cpp` (adaptive traffic light simulator).

The C++ program is single-threaded and sequential.  Machine `int` is
modelled as `Int` (no value in the program approaches 32-bit bounds).
The allocator's `double` expression `round((d / total) * extra)` is
modelled bit-faithfully to IEEE-754 binary64: the `int`-to-`double`
conversions are exact, the quotient and the product are each rounded to
nearest (ties to even) at 53 significant bits by `fl64Div` / `fl64Norm`,
and C's `round` (half away from zero, exact on a `double`) is applied to
the resulting dyadic rational — see `roundDouble`.  Console output lines
are modelled as `String`s; the
wall-clock timestamp produced by `current_time_str` is an external input
and is passed in as a parameter `ts`.  The call to `wait_and_print`
(the external timing collaborator) is modelled as a `SimEvent.wait`
event recording the duration the sequencer hands to it.
-/

namespace TrafficSim

/-- Embedding of `enum class LightState { RED, GREEN, YELLOW }` from the source. -/
inductive LightState where
  | RED
  | GREEN
  | YELLOW
deriving DecidableEq, Repr

/-- Embedding of `struct TrafficLight` from the source, with its default member values
(`state = RED`, `green_duration = 10`, `yellow_duration = 3`,
`red_duration = 0`); the constructor only sets the name. -/
structure TrafficLight where
  name : String
  state : LightState := .RED
  green_duration : Int := 10
  yellow_duration : Int := 3
  red_duration : Int := 0
deriving DecidableEq, Repr

/-- Embedding of `TrafficLight::state_to_string` from the source. -/
def TrafficLight.state_to_string : LightState → String
  | .RED => "RED"
  | .GREEN => "GREEN"
  | .YELLOW => "YELLOW"

/-- The state of `class IntersectionController`: the two owned lights and
the configuration fields. -/
structure IntersectionController where
  ns : TrafficLight
  ew : TrafficLight
  min_green : Int
  max_green : Int
  yellow_time : Int
  all_red_time : Int
  cycles : Int
  realtime_delay : Bool
deriving DecidableEq, Repr

/-- The `IntersectionController` constructor: builds the two lights
("North-South", "East-West") and then assigns `yellow_time` to both
lights' `yellow_duration`. -/
def IntersectionController.make (minG maxG yellow allred cycles_ : Int)
    (realtime : Bool) : IntersectionController :=
  { ns := { name := "North-South", yellow_duration := yellow }
  , ew := { name := "East-West", yellow_duration := yellow }
  , min_green := minG
  , max_green := maxG
  , yellow_time := yellow
  , all_red_time := allred
  , cycles := cycles_
  , realtime_delay := realtime }

/-- C's `round` on exact rationals: round half away from zero. -/
def roundHalfAway (q : ℚ) : Int :=
  if q < 0 then -⌊-q + 1/2⌋ else ⌊q + 1/2⌋

/-- Computation of `round(num / den)` (half away from zero) computed in exact integer
arithmetic, for a denominator `den > 0`: for `num ≥ 0`,
`⌊num/den + 1/2⌋ = (2*num + den) / (2*den)` in floor division.  The lemma
`roundHalfAwayFrac_eq` below proves it equal to `roundHalfAway` of the
corresponding rational. -/
def roundHalfAwayFrac (num den : Int) : Int :=
  if num < 0 then -((2 * -num + den) / (2 * den)) else (2 * num + den) / (2 * den)

/-- Embedding of `std::clamp(v, lo, hi)`. -/
def clampInt (v lo hi : Int) : Int :=
  if v < lo then lo else if hi < v then hi else v

/-- Fuel-driven floor of log2 (the fuel argument only bounds the recursion
depth; `log2floor` passes `n` itself, which always suffices). -/
def log2floorAux : Nat → Nat → Nat
  | 0, _ => 0
  | fuel + 1, n => if 2 ≤ n then log2floorAux fuel (n / 2) + 1 else 0

/-- Floor of log2 of a positive natural (0 for 0). -/
def log2floor (n : Nat) : Nat := log2floorAux n n

/-- Integer division of `N` by `D` rounded to nearest, ties to even — the
IEEE-754 default rounding applied to a scaled mantissa. -/
def rneDiv (N D : Nat) : Nat :=
  let f := N / D
  let r := N % D
  if 2 * r < D then f
  else if D < 2 * r then f + 1
  else if f % 2 = 0 then f else f + 1

/-- The unique `e` with `2^e ≤ n/d < 2^(e+1)` for positive `n`, `d`. -/
def qFloorLog2 (n d : Nat) : Int :=
  let a := log2floor n
  let b := log2floor d
  if d * 2 ^ a ≤ n * 2 ^ b then (a : Int) - b else (a : Int) - b - 1

/-- IEEE-754 binary64 value of the quotient `n / d` (`n`, `d` positive),
as a dyadic rational `mantissa * 2^exponent`: the exact quotient rounded
to nearest, ties to even, at 53 significant bits (mantissa in
`[2^52, 2^53]`), with the subnormal cut at `2^-1022`.  Overflow to
infinity cannot occur for quotients of 32-bit machine ints, whose
magnitude stays far inside the binary64 range. -/
def fl64Div (n d : Nat) : Nat × Int :=
  if n = 0 then (0, 0)
  else
    let e := qFloorLog2 n d
    if e < -1022 then (rneDiv (n * 2 ^ 1074) d, -1074)
    else
      let s := 52 - e
      if 0 ≤ s then (rneDiv (n * 2 ^ s.toNat) d, e - 52)
      else (rneDiv n (d * 2 ^ (-s).toNat), e - 52)

/-- IEEE-754 binary64 rounding of an exact product `K * 2^g` (`K` a
natural): round `K` to 53 significant bits, ties to even.  This is the
double multiplication of the allocator's pipeline, whose factors (a
quotient already in binary64 and an exactly-converted `int`) make the
exact product a dyadic rational of this shape in the normal range. -/
def fl64Norm (K : Nat) (g : Int) : Nat × Int :=
  if K < 2 ^ 53 then (K, g)
  else
    let s := log2floor K - 52
    (rneDiv K (2 ^ s), g + s)

/-- The allocator's `double` pipeline
`static_cast<int>(round((d / total) * extra))` with IEEE-754 binary64
semantics (round to nearest, ties to even, on the quotient and on the
product; C `round` half away from zero on the result; the final cast is
the identity on the integral rounded value): magnitudes are computed on
`natAbs` and the sign restored, matching the sign-symmetric `double`
operations.  Only `total > 0` is reachable from
`compute_and_set_green`. -/
def roundDouble (d total extra : Int) : Int :=
  let nd := d.natAbs
  let nt := total.natAbs
  let ne := extra.natAbs
  if nd = 0 ∨ ne = 0 then 0
  else
    let q := fl64Div nd nt
    let p := fl64Norm (q.1 * ne) q.2
    let mag := if 0 ≤ p.2 then (p.1 : Int) * 2 ^ p.2.toNat
               else roundHalfAwayFrac (p.1 : Int) (2 ^ (-p.2).toNat)
    if (0 ≤ d) ↔ (0 ≤ extra) then mag else -mag

/-- Embedding of `IntersectionController::compute_and_set_green` from the source.
If the density total is `≤ 0` both greens get `min_green` and the method
returns early (the yellow durations are *not* reassigned on that path);
otherwise each green is `min_green + round((density/total) * extra_budget)`
clamped to `[min_green, max_green]`, and both yellow durations are
reassigned to `yellow_time`.  The `int`-to-`double` conversions are
exact, so the comparison `total <= 0.0` is the integer comparison; the
proportional expression is computed in `double` and is modelled
bit-faithfully by `roundDouble` (binary64 quotient, binary64 product,
C `round`), which can differ by one from the exact rational rounding
when the double product falls on the other side of a half-integer
(e.g. densities 47/23 with bounds 5/40). -/
def compute_and_set_green (c : IntersectionController)
    (ns_density ew_density : Int) : IntersectionController :=
  let total := ns_density + ew_density
  if total ≤ 0 then
    let nsL := { c.ns with green_duration := c.min_green }
    let ewL := { c.ew with green_duration := c.min_green }
    { c with ns := nsL, ew := ewL }
  else
    let base := c.min_green
    let extra_budget := c.max_green - c.min_green
    let nsg := base + roundDouble ns_density total extra_budget
    let ewg := base + roundDouble ew_density total extra_budget
    let nsL := { c.ns with green_duration := clampInt nsg c.min_green c.max_green, yellow_duration := c.yellow_time }
    let ewL := { c.ew with green_duration := clampInt ewg c.min_green c.max_green, yellow_duration := c.yellow_time }
    { c with ns := nsL, ew := ewL }

/-- Direction labels of the two lights (first-to-go NS, second-to-go EW). -/
inductive Dir where
  | NS
  | EW
deriving DecidableEq, Repr

/-- The light of a direction within a controller state. -/
def dirLight : Dir → IntersectionController → TrafficLight
  | .NS, c => c.ns
  | .EW, c => c.ew

/-- An observable event of the sequencer: a phase transition together
with the log line it prints, or a hand-off to the external wait/notify
collaborator (`wait_and_print`) with the duration passed to it. -/
inductive SimEvent where
  | trans (d : Dir) (phase : LightState) (line : String)
  | wait (seconds : Int)
deriving DecidableEq, Repr

/-- Projection of an event to its phase-transition content, if any. -/
def SimEvent.transition : SimEvent → Option (Dir × LightState)
  | .trans d p _ => some (d, p)
  | .wait _ => none

/-- Projection of an event to the duration handed to the collaborator. -/
def SimEvent.waitSecs : SimEvent → Option Int
  | .wait n => some n
  | .trans _ _ _ => none

/-- The skeleton of an event: the transition (direction, phase) or the
duration handed to the wait collaborator, forgetting the log line. -/
def SimEvent.skel : SimEvent → Sum (Dir × LightState) Int
  | .trans d p _ => .inl (d, p)
  | .wait n => .inr n

/-- The log line printed by `set_and_print` after setting phase `s` on
light `tl` (timestamp `ts` supplied externally): GREEN prints the green
duration, YELLOW the yellow duration, RED the text
"until other gets green" in place of the number. -/
def printLine (ts : String) (tl : TrafficLight) (s : LightState) : String :=
  "[" ++ ts ++ "] " ++ tl.name ++ " -> " ++ TrafficLight.state_to_string s
    ++ " (will last "
    ++ (match s with
        | .GREEN => toString tl.green_duration
        | .YELLOW => toString tl.yellow_duration
        | .RED => "until other gets green")
    ++ "s)"

/-- Embedding of `IntersectionController::set_and_print`: sets the light's phase and
returns the updated light together with the printed line. -/
def set_and_print (ts : String) (tl : TrafficLight) (s : LightState) :
    TrafficLight × String :=
  ({ tl with state := s }, printLine ts { tl with state := s } s)

/-- Result of one invocation of `run_phase`: the final controller state,
the events emitted in order, and the controller state after each of the
six phase transitions (in order). -/
structure PhaseResult where
  final : IntersectionController
  events : List SimEvent
  states : List IntersectionController
deriving DecidableEq, Repr

/-- Embedding of `IntersectionController::run_phase(ns, ew)` from the source (its only
call site passes `ns` as `firstGreen` and `ew` as `second`): first
direction GREEN → wait(green) → YELLOW → wait(yellow) → RED →
wait(all_red_time), then the same for the second direction. -/
def run_phase (c : IntersectionController) (ts : String) : PhaseResult :=
  let c1 := { c with ns := (set_and_print ts c.ns .GREEN).1 }
  let e1 := SimEvent.trans .NS .GREEN (set_and_print ts c.ns .GREEN).2
  let c2 := { c1 with ns := (set_and_print ts c1.ns .YELLOW).1 }
  let e2 := SimEvent.trans .NS .YELLOW (set_and_print ts c1.ns .YELLOW).2
  let c3 := { c2 with ns := (set_and_print ts c2.ns .RED).1 }
  let e3 := SimEvent.trans .NS .RED (set_and_print ts c2.ns .RED).2
  let c4 := { c3 with ew := (set_and_print ts c3.ew .GREEN).1 }
  let e4 := SimEvent.trans .EW .GREEN (set_and_print ts c3.ew .GREEN).2
  let c5 := { c4 with ew := (set_and_print ts c4.ew .YELLOW).1 }
  let e5 := SimEvent.trans .EW .YELLOW (set_and_print ts c4.ew .YELLOW).2
  let c6 := { c5 with ew := (set_and_print ts c5.ew .RED).1 }
  let e6 := SimEvent.trans .EW .RED (set_and_print ts c5.ew .RED).2
  { final := c6
  , events :=
      [ e1, SimEvent.wait c1.ns.green_duration
      , e2, SimEvent.wait c2.ns.yellow_duration
      , e3, SimEvent.wait c.all_red_time
      , e4, SimEvent.wait c4.ew.green_duration
      , e5, SimEvent.wait c5.ew.yellow_duration
      , e6, SimEvent.wait c.all_red_time ]
  , states := [c1, c2, c3, c4, c5, c6] }

/-- Result of a (possibly multi-cycle) simulation: final state, events in
order, the state after each allocation and each transition in order, and
the density pair passed to `compute_and_set_green` by each cycle, in
order. -/
structure SimResult where
  final : IntersectionController
  events : List SimEvent
  states : List IntersectionController
  allocs : List (Int × Int)
deriving DecidableEq, Repr

/-- The loop body of `simulate_with_inputs`: `n` remaining cycles, each
cycle calling `compute_and_set_green` with the (fixed) densities and then
`run_phase`. -/
def simCycles (ts : String) (ns_density ew_density : Int) :
    Nat → IntersectionController → SimResult
  | 0, c => { final := c, events := [], states := [], allocs := [] }
  | n + 1, c =>
    let cA := compute_and_set_green c ns_density ew_density
    let r := run_phase cA ts
    let rest := simCycles ts ns_density ew_density n r.final
    { final := rest.final
    , events := r.events ++ rest.events
    , states := (cA :: r.states) ++ rest.states
    , allocs := (ns_density, ew_density) :: rest.allocs }

/-- Embedding of `IntersectionController::simulate_with_inputs`: runs `cycles` cycles
(loop `for c = 1..cycles`), every cycle re-allocating from the same
density pair and then running the phase sequence. -/
def simulate_with_inputs (c : IntersectionController) (ts : String)
    (ns_density ew_density : Int) : SimResult :=
  simCycles ts ns_density ew_density c.cycles.toNat c

/-- The random-mode branch of `main`: loop `for c = 0..cycles-1`, drawing
one density pair per iteration from the RNG (modelled as the external
stream `pairs`) and calling `simulate_with_inputs` on the one controller
with that pair.  `k` is the current draw index, `n` the remaining
iterations. -/
def mainRandomLoop (ts : String) (pairs : Nat → Int × Int) :
    Nat → Nat → IntersectionController → SimResult
  | _, 0, c => { final := c, events := [], states := [], allocs := [] }
  | k, n + 1, c =>
    let p := pairs k
    let r := simulate_with_inputs c ts p.1 p.2
    let rest := mainRandomLoop ts pairs (k + 1) n r.final
    { final := rest.final
    , events := r.events ++ rest.events
    , states := r.states ++ rest.states
    , allocs := r.allocs ++ rest.allocs }

/-- Embedding of `main` in random input mode: constructs
`IntersectionController(5, 40, 3, 1, cycles, realtime)` once, then loops
`cycles` times, each iteration drawing a fresh pair and calling
`simulate_with_inputs`. -/
def mainRandom (cycles : Int) (realtime : Bool) (ts : String)
    (pairs : Nat → Int × Int) : SimResult :=
  mainRandomLoop ts pairs 0 cycles.toNat
    (IntersectionController.make 5 40 3 1 cycles realtime)

/-- The Duration Allocator exactly as the spec's §4.1 words it:
if the density total is zero return `(min_green, min_green)`; otherwise
`green = min_green + round((density / total) * extra_budget)` in exact
rational arithmetic with round half away from zero, each result clamped
independently to `[min_green, max_green]`. -/
def allocate_spec (ns_density ew_density min_green max_green : Int) : Int × Int :=
  if ns_density + ew_density = 0 then (min_green, min_green)
  else
    let total : ℚ := (ns_density : ℚ) + (ew_density : ℚ)
    let extra_budget : ℚ := ((max_green - min_green : Int) : ℚ)
    ( clampInt (min_green + roundHalfAway (((ns_density : ℚ) / total) * extra_budget)) min_green max_green
    , clampInt (min_green + roundHalfAway (((ew_density : ℚ) / total) * extra_budget)) min_green max_green )

/-- The Duration Allocator as the code actually computes it: the
spec's formula with the proportional expression evaluated in IEEE-754
binary64 (`roundDouble`) instead of exact rational arithmetic, each
result clamped independently to `[min_green, max_green]`; the zero-total
guard is unchanged. -/
def allocate_double (ns_density ew_density min_green max_green : Int) : Int × Int :=
  if ns_density + ew_density = 0 then (min_green, min_green)
  else
    let total := ns_density + ew_density
    let extra_budget := max_green - min_green
    ( clampInt (min_green + roundDouble ns_density total extra_budget) min_green max_green
    , clampInt (min_green + roundDouble ew_density total extra_budget) min_green max_green )

theorem roundHalfAwayFrac_eq (num den : Int) (hd : 0 < den) :
    roundHalfAwayFrac num den = roundHalfAway ((num : ℚ) / (den : ℚ)) := by
  have hdq : (0 : ℚ) < (den : ℚ) := by exact_mod_cast hd
  have hdq0 : (den : ℚ) ≠ 0 := ne_of_gt hdq
  have hD : (((2 * den).toNat : ℕ) : ℤ) = 2 * den := Int.toNat_of_nonneg (by omega)
  have hDq : (((2 * den).toNat : ℕ) : ℚ) = 2 * (den : ℚ) := by
    have := congrArg (fun z : ℤ => (z : ℚ)) hD
    push_cast at this
    exact this
  unfold roundHalfAwayFrac roundHalfAway
  rcases lt_or_le num 0 with hn | hn
  · have hq : (num : ℚ) / (den : ℚ) < 0 :=
      div_neg_of_neg_of_pos (by exact_mod_cast hn) hdq
    rw [if_pos hn, if_pos hq]
    have h1 : -((num : ℚ) / (den : ℚ)) + 1 / 2
        = ((2 * -num + den : ℤ) : ℚ) / (((2 * den).toNat : ℕ) : ℚ) := by
      rw [hDq]
      push_cast
      field_simp
      ring
    rw [h1, Rat.floor_intCast_div_natCast, hD]
  · have hq : ¬((num : ℚ) / (den : ℚ) < 0) := by
      push_neg
      exact div_nonneg (by exact_mod_cast hn) (le_of_lt hdq)
    rw [if_neg (by omega : ¬num < 0), if_neg hq]
    have h1 : (num : ℚ) / (den : ℚ) + 1 / 2
        = ((2 * num + den : ℤ) : ℚ) / (((2 * den).toNat : ℕ) : ℚ) := by
      rw [hDq]
      push_cast
      field_simp
      ring
    rw [h1, Rat.floor_intCast_div_natCast, hD]

theorem clampInt_bounds (v : Int) {lo hi : Int} (h : lo ≤ hi) :
    lo ≤ clampInt v lo hi ∧ clampInt v lo hi ≤ hi := by
  unfold clampInt
  split_ifs <;> omega

/-- The fields of the controller other than the two lights are never
changed by `compute_and_set_green`. -/
theorem compute_and_set_green_config (c : IntersectionController) (a b : Int) :
    (compute_and_set_green c a b).min_green = c.min_green ∧
    (compute_and_set_green c a b).max_green = c.max_green ∧
    (compute_and_set_green c a b).yellow_time = c.yellow_time ∧
    (compute_and_set_green c a b).all_red_time = c.all_red_time ∧
    (compute_and_set_green c a b).cycles = c.cycles := by
  simp only [compute_and_set_green]
  split <;> exact ⟨rfl, rfl, rfl, rfl, rfl⟩

/-- The method `compute_and_set_green` never touches the phase fields or names. -/
theorem compute_and_set_green_state (c : IntersectionController) (a b : Int) :
    (compute_and_set_green c a b).ns.state = c.ns.state ∧
    (compute_and_set_green c a b).ew.state = c.ew.state ∧
    (compute_and_set_green c a b).ns.name = c.ns.name ∧
    (compute_and_set_green c a b).ew.name = c.ew.name := by
  simp only [compute_and_set_green]
  split <;> exact ⟨rfl, rfl, rfl, rfl⟩

/-- If both lights carry `yellow_time` as yellow duration, they still do
after `compute_and_set_green` (the nonzero branch reassigns it, the zero
branch leaves it alone). -/
theorem compute_and_set_green_yellow (c : IntersectionController) (a b : Int)
    (h1 : c.ns.yellow_duration = c.yellow_time)
    (h2 : c.ew.yellow_duration = c.yellow_time) :
    (compute_and_set_green c a b).ns.yellow_duration = c.yellow_time ∧
    (compute_and_set_green c a b).ew.yellow_duration = c.yellow_time := by
  simp only [compute_and_set_green]
  split
  · exact ⟨h1, h2⟩
  · exact ⟨rfl, rfl⟩

/-- After `compute_and_set_green` both green durations lie in
`[min_green, max_green]` whenever `min_green ≤ max_green`. -/
theorem compute_and_set_green_bounds (c : IntersectionController) (a b : Int)
    (h : c.min_green ≤ c.max_green) :
    (c.min_green ≤ (compute_and_set_green c a b).ns.green_duration ∧
      (compute_and_set_green c a b).ns.green_duration ≤ c.max_green) ∧
    (c.min_green ≤ (compute_and_set_green c a b).ew.green_duration ∧
      (compute_and_set_green c a b).ew.green_duration ≤ c.max_green) := by
  simp only [compute_and_set_green]
  split
  · exact ⟨⟨le_refl _, h⟩, ⟨le_refl _, h⟩⟩
  · exact ⟨clampInt_bounds _ h, clampInt_bounds _ h⟩

/-- The method `run_phase` leaves every configuration field unchanged. -/
theorem run_phase_final_config (c : IntersectionController) (ts : String) :
    (run_phase c ts).final.min_green = c.min_green ∧
    (run_phase c ts).final.max_green = c.max_green ∧
    (run_phase c ts).final.yellow_time = c.yellow_time ∧
    (run_phase c ts).final.all_red_time = c.all_red_time ∧
    (run_phase c ts).final.cycles = c.cycles :=
  ⟨rfl, rfl, rfl, rfl, rfl⟩

/-- The method `run_phase` never changes a duration, only the phase fields. -/
theorem run_phase_final_durations (c : IntersectionController) (ts : String) :
    (run_phase c ts).final.ns.green_duration = c.ns.green_duration ∧
    (run_phase c ts).final.ew.green_duration = c.ew.green_duration ∧
    (run_phase c ts).final.ns.yellow_duration = c.ns.yellow_duration ∧
    (run_phase c ts).final.ew.yellow_duration = c.ew.yellow_duration :=
  ⟨rfl, rfl, rfl, rfl⟩

/-- Both lights end a `run_phase` in RED. -/
theorem run_phase_final_red (c : IntersectionController) (ts : String) :
    (run_phase c ts).final.ns.state = .RED ∧
    (run_phase c ts).final.ew.state = .RED :=
  ⟨rfl, rfl⟩

/-- Every intermediate state of a `run_phase` keeps the durations and the
configuration of the entry state. -/
theorem run_phase_states_durations (c : IntersectionController) (ts : String) :
    ∀ st ∈ (run_phase c ts).states,
      st.ns.green_duration = c.ns.green_duration ∧
      st.ew.green_duration = c.ew.green_duration ∧
      st.ns.yellow_duration = c.ns.yellow_duration ∧
      st.ew.yellow_duration = c.ew.yellow_duration ∧
      st.min_green = c.min_green ∧
      st.max_green = c.max_green ∧
      st.yellow_time = c.yellow_time := by
  intro st hst
  simp only [run_phase, set_and_print, List.mem_cons, List.not_mem_nil, or_false] at hst
  rcases hst with rfl | rfl | rfl | rfl | rfl | rfl <;>
    exact ⟨rfl, rfl, rfl, rfl, rfl, rfl, rfl⟩

/-- The six phase snapshots of a `run_phase` beginning with the EW light
red: NS green/yellow with EW red, then the all-red snapshot, then EW
green/yellow with NS red, then the final all-red snapshot. -/
theorem run_phase_states_phases (c : IntersectionController) (ts : String)
    (hew : c.ew.state = .RED) :
    (run_phase c ts).states.map (fun st => (st.ns.state, st.ew.state)) =
      [ (.GREEN, .RED), (.YELLOW, .RED), (.RED, .RED)
      , (.RED, .GREEN), (.RED, .YELLOW), (.RED, .RED) ] := by
  simp only [run_phase, set_and_print, List.map_cons, List.map_nil, hew]

/-- Unfolding equation for one simulated cycle. -/
theorem simCycles_succ (ts : String) (a b : Int) (n : Nat)
    (c : IntersectionController) :
    simCycles ts a b (n + 1) c =
      { final := (simCycles ts a b n (run_phase (compute_and_set_green c a b) ts).final).final
      , events := (run_phase (compute_and_set_green c a b) ts).events
          ++ (simCycles ts a b n (run_phase (compute_and_set_green c a b) ts).final).events
      , states := (compute_and_set_green c a b
            :: (run_phase (compute_and_set_green c a b) ts).states)
          ++ (simCycles ts a b n (run_phase (compute_and_set_green c a b) ts).final).states
      , allocs := (a, b)
          :: (simCycles ts a b n (run_phase (compute_and_set_green c a b) ts).final).allocs } :=
  rfl

/-- Green-duration bounds hold at every recorded state of a simulation,
for any start state carrying bounds `m ≤ M`. -/
theorem simCycles_green_bounds (ts : String) (a b m M : Int) (hmM : m ≤ M) :
    ∀ (n : Nat) (c : IntersectionController), c.min_green = m → c.max_green = M →
      ∀ st ∈ (simCycles ts a b n c).states,
        m ≤ st.ns.green_duration ∧ st.ns.green_duration ≤ M ∧
        m ≤ st.ew.green_duration ∧ st.ew.green_duration ≤ M := by
  intro n
  induction n with
  | zero =>
    intro c _ _ st hst
    simp [simCycles] at hst
  | succ k ih =>
    intro c hm hM st hst
    subst hm
    subst hM
    rw [simCycles_succ] at hst
    have hcb := compute_and_set_green_bounds c a b hmM
    have hAcfg := compute_and_set_green_config c a b
    have hRcfg := run_phase_final_config (compute_and_set_green c a b) ts
    simp only [List.mem_append, List.mem_cons] at hst
    rcases hst with (rfl | hst) | hst
    · exact ⟨hcb.1.1, hcb.1.2, hcb.2.1, hcb.2.2⟩
    · obtain ⟨e1, e2, _, _, _, _, _⟩ :=
        run_phase_states_durations (compute_and_set_green c a b) ts st hst
      rw [e1, e2]
      exact ⟨hcb.1.1, hcb.1.2, hcb.2.1, hcb.2.2⟩
    · exact ih _ (by rw [hRcfg.1, hAcfg.1]) (by rw [hRcfg.2.1, hAcfg.2.1]) st hst

/-- Phase snapshots of a whole simulation starting all-red: every cycle
contributes the same seven-snapshot block, beginning and ending all-red
with an all-red snapshot between the two directions. -/
theorem simCycles_phases (ts : String) (a b : Int) :
    ∀ (n : Nat) (c : IntersectionController),
      c.ns.state = .RED → c.ew.state = .RED →
      (simCycles ts a b n c).states.map (fun st => (st.ns.state, st.ew.state)) =
        List.flatten (List.replicate n
          [ ((.RED : LightState), (.RED : LightState)), (.GREEN, .RED), (.YELLOW, .RED)
          , (.RED, .RED), (.RED, .GREEN), (.RED, .YELLOW), (.RED, .RED) ]) := by
  intro n
  induction n with
  | zero =>
    intro c _ _
    simp [simCycles]
  | succ k ih =>
    intro c h1 h2
    rw [simCycles_succ]
    have hs := compute_and_set_green_state c a b
    have hphases := run_phase_states_phases (compute_and_set_green c a b) ts
      (by rw [hs.2.1, h2])
    have hfin := run_phase_final_red (compute_and_set_green c a b) ts
    simp only [List.map_append, List.map_cons, hphases, List.replicate_succ,
      List.flatten_cons, ih _ hfin.1 hfin.2, hs.1, hs.2.1, h1, h2]

/-- Yellow durations stay pinned to the configured `yellow_time` at every
recorded state and at the end of a simulation. -/
theorem simCycles_yellow (ts : String) (a b : Int) :
    ∀ (n : Nat) (c : IntersectionController),
      c.ns.yellow_duration = c.yellow_time → c.ew.yellow_duration = c.yellow_time →
      ((∀ st ∈ (simCycles ts a b n c).states,
          st.ns.yellow_duration = c.yellow_time ∧
          st.ew.yellow_duration = c.yellow_time) ∧
        (simCycles ts a b n c).final.ns.yellow_duration = c.yellow_time ∧
        (simCycles ts a b n c).final.ew.yellow_duration = c.yellow_time ∧
        (simCycles ts a b n c).final.yellow_time = c.yellow_time) := by
  intro n
  induction n with
  | zero =>
    intro c h1 h2
    refine ⟨?_, h1, h2, rfl⟩
    intro st hst
    simp [simCycles] at hst
  | succ k ih =>
    intro c h1 h2
    have hy := compute_and_set_green_yellow c a b h1 h2
    have hAcfg := compute_and_set_green_config c a b
    have hRd := run_phase_final_durations (compute_and_set_green c a b) ts
    have hRcfg := run_phase_final_config (compute_and_set_green c a b) ts
    have hfy : (run_phase (compute_and_set_green c a b) ts).final.yellow_time
        = c.yellow_time := by rw [hRcfg.2.2.1, hAcfg.2.2.1]
    have hf1 : (run_phase (compute_and_set_green c a b) ts).final.ns.yellow_duration
        = c.yellow_time := by rw [hRd.2.2.1, hy.1]
    have hf2 : (run_phase (compute_and_set_green c a b) ts).final.ew.yellow_duration
        = c.yellow_time := by rw [hRd.2.2.2, hy.2]
    have hrec := ih (run_phase (compute_and_set_green c a b) ts).final
      (by rw [hf1, hfy]) (by rw [hf2, hfy])
    rw [simCycles_succ]
    refine ⟨?_, ?_, ?_, ?_⟩
    · intro st hst
      simp only [List.mem_append, List.mem_cons] at hst
      rcases hst with (rfl | hst) | hst
      · exact ⟨hy.1, hy.2⟩
      · obtain ⟨_, _, e3, e4, _, _, _⟩ :=
          run_phase_states_durations (compute_and_set_green c a b) ts st hst
        rw [e3, e4]
        exact ⟨hy.1, hy.2⟩
      · obtain ⟨hall, _, _, _⟩ := hrec
        obtain ⟨u1, u2⟩ := hall st hst
        rw [u1, u2, hfy]
        exact ⟨rfl, rfl⟩
    · rw [hrec.2.1, hfy]
    · rw [hrec.2.2.1, hfy]
    · rw [hrec.2.2.2, hfy]

/-- A single `run_phase` call emits exactly the six transitions in the
fixed NS-then-EW order. -/
theorem run_phase_transitions (c : IntersectionController) (ts : String) :
    (run_phase c ts).events.filterMap SimEvent.transition =
      [ ((Dir.NS : Dir), (.GREEN : LightState)), (.NS, .YELLOW), (.NS, .RED)
      , (.EW, .GREEN), (.EW, .YELLOW), (.EW, .RED) ] := by
  simp [run_phase, set_and_print, SimEvent.transition]

/-- Across a simulation, the transition events are the per-cycle block of
six, repeated once per cycle. -/
theorem simCycles_transitions (ts : String) (a b : Int) :
    ∀ (n : Nat) (c : IntersectionController),
      (simCycles ts a b n c).events.filterMap SimEvent.transition =
        List.flatten (List.replicate n
          [ ((Dir.NS : Dir), (.GREEN : LightState)), (.NS, .YELLOW), (.NS, .RED)
          , (.EW, .GREEN), (.EW, .YELLOW), (.EW, .RED) ]) := by
  intro n
  induction n with
  | zero =>
    intro c
    simp [simCycles]
  | succ k ih =>
    intro c
    rw [simCycles_succ]
    simp only [List.filterMap_append, run_phase_transitions, ih,
      List.replicate_succ, List.flatten_cons]

/-- C1: the claim says a random-mode run with cycle count N performs
exactly N cycles, each consuming a fresh density pair.  The code instead
runs N outer iterations that each call `simulate_with_inputs`, which
itself runs N cycles with the same pair: with N = 2 and the density
stream (10,20), (30,40), the allocation sequence is four cycles long and
each drawn pair is consumed by two consecutive cycles. -/
theorem random_mode_cycle_count_bug :
    (mainRandom 2 false "" (fun k => if k = 0 then (10, 20) else (30, 40))).allocs
        = [(10, 20), (10, 20), (30, 40), (30, 40)] ∧
    (mainRandom 2 false "" (fun k => if k = 0 then (10, 20) else (30, 40))).allocs.length
        = 4 := by
  constructor <;> decide

/-- C2 counterexample: the claim's formula — exact rational
`min_green + round((density/total) * (max_green - min_green))`, clamped —
is false of the code at densities (47, 23) with the program's own bounds
(5, 40): the exact value of the NS share is 47·35/70 = 23.5, which
rounds half-away to 24 (green 29), but the code's `double` pipeline
computes `fl(fl(47/70) * 35) = 23.499999999999996`, whose C `round` is
23 (green 28). -/
theorem allocator_exact_rounding_counterexample :
    (compute_and_set_green (IntersectionController.make 5 40 3 1 1 false) 47 23).ns.green_duration
        = 28 ∧
    (allocate_spec 47 23 5 40).1 = 29 := by
  refine ⟨by decide, ?_⟩
  have h1 : ¬((47 : Int) + 23 = 0) := by norm_num
  simp only [allocate_spec, if_neg h1]
  have h2 : ((47 : Int) : ℚ) / (((47 : Int) : ℚ) + ((23 : Int) : ℚ))
      * (((40 : Int) - (5 : Int) : Int) : ℚ) = 47 / 2 := by
    push_cast
    norm_num
  rw [h2]
  have h3 : roundHalfAway (47 / 2) = 24 := by
    unfold roundHalfAway
    rw [if_neg (by norm_num)]
    have h4 : (47 : ℚ) / 2 + 1 / 2 = ((24 : Int) : ℚ) := by norm_num
    rw [h4, Int.floor_intCast]
  rw [h3]
  decide

/-- C2 (amended): with a positive density total, nonnegative densities
and `0 ≤ min_green ≤ max_green`, each green duration set by
`compute_and_set_green` is `min_green + round((density/total) *
(max_green - min_green))` with the proportional expression evaluated in
IEEE-754 binary64 (quotient and product each rounded to nearest, ties to
even) and C `round` half away from zero, clamped independently to
`[min_green, max_green]` — i.e. exactly `allocate_double`; in particular
`allocate(100, 0, 5, 40) = (40, 5)` (that input is exact in `double`). -/
theorem allocator_double_formula (c : IntersectionController) (nsd ewd : Int)
    (h1 : 0 ≤ nsd) (h2 : 0 ≤ ewd) (h3 : 0 < nsd + ewd)
    (h4 : 0 ≤ c.min_green) (h5 : c.min_green ≤ c.max_green) :
    ((compute_and_set_green c nsd ewd).ns.green_duration,
      (compute_and_set_green c nsd ewd).ew.green_duration)
        = allocate_double nsd ewd c.min_green c.max_green ∧
    allocate_double 100 0 5 40 = (40, 5) := by
  refine ⟨?_, by decide⟩
  have ht : ¬(nsd + ewd ≤ 0) := by omega
  have ht0 : ¬(nsd + ewd = 0) := by omega
  simp only [compute_and_set_green, allocate_double, if_neg ht, if_neg ht0]

theorem allocator_double_formula_witness :
    ((compute_and_set_green (IntersectionController.make 5 40 3 1 1 false) 100 0).ns.green_duration,
      (compute_and_set_green (IntersectionController.make 5 40 3 1 1 false) 100 0).ew.green_duration)
        = allocate_double 100 0 (IntersectionController.make 5 40 3 1 1 false).min_green
            (IntersectionController.make 5 40 3 1 1 false).max_green ∧
    allocate_double 100 0 5 40 = (40, 5) :=
  allocator_double_formula (IntersectionController.make 5 40 3 1 1 false) 100 0
    (by decide) (by decide) (by decide) (by decide) (by decide)

/-- C3: with `0 ≤ min_green ≤ max_green` and nonnegative densities, at
every recorded point of a run (the state after each allocation and after
each phase transition, in every cycle) both green durations lie in
`[min_green, max_green]`. -/
theorem green_duration_always_in_bounds (c : IntersectionController) (ts : String)
    (a b : Int) (ha : 0 ≤ a) (hb : 0 ≤ b)
    (h0 : 0 ≤ c.min_green) (h1 : c.min_green ≤ c.max_green) :
    ∀ st ∈ (simulate_with_inputs c ts a b).states,
      c.min_green ≤ st.ns.green_duration ∧ st.ns.green_duration ≤ c.max_green ∧
      c.min_green ≤ st.ew.green_duration ∧ st.ew.green_duration ≤ c.max_green :=
  simCycles_green_bounds ts a b c.min_green c.max_green h1 c.cycles.toNat c rfl rfl

theorem green_duration_always_in_bounds_witness :
    (IntersectionController.make 5 40 3 1 2 false).min_green
        ≤ (compute_and_set_green (IntersectionController.make 5 40 3 1 2 false) 10 20).ns.green_duration ∧
      (compute_and_set_green (IntersectionController.make 5 40 3 1 2 false) 10 20).ns.green_duration
        ≤ (IntersectionController.make 5 40 3 1 2 false).max_green ∧
      (IntersectionController.make 5 40 3 1 2 false).min_green
        ≤ (compute_and_set_green (IntersectionController.make 5 40 3 1 2 false) 10 20).ew.green_duration ∧
      (compute_and_set_green (IntersectionController.make 5 40 3 1 2 false) 10 20).ew.green_duration
        ≤ (IntersectionController.make 5 40 3 1 2 false).max_green :=
  green_duration_always_in_bounds (IntersectionController.make 5 40 3 1 2 false) "" 10 20
    (by decide) (by decide) (by decide) (by decide)
    (compute_and_set_green (IntersectionController.make 5 40 3 1 2 false) 10 20)
    (by decide)

/-- C4: every cycle emits exactly the six phase transitions NS-GREEN,
NS-YELLOW, NS-RED, EW-GREEN, EW-YELLOW, EW-RED in that fixed order (NS
before EW), and a whole run's transition stream is that block repeated
once per cycle. -/
theorem cycle_emits_six_transitions_in_order :
    (∀ (c : IntersectionController) (ts : String),
        (run_phase c ts).events.filterMap SimEvent.transition =
          [ ((Dir.NS : Dir), (.GREEN : LightState)), (.NS, .YELLOW), (.NS, .RED)
          , (.EW, .GREEN), (.EW, .YELLOW), (.EW, .RED) ]) ∧
    (∀ (c : IntersectionController) (ts : String) (a b : Int),
        (simulate_with_inputs c ts a b).events.filterMap SimEvent.transition =
          List.flatten (List.replicate c.cycles.toNat
            [ ((Dir.NS : Dir), (.GREEN : LightState)), (.NS, .YELLOW), (.NS, .RED)
            , (.EW, .GREEN), (.EW, .YELLOW), (.EW, .RED) ])) :=
  ⟨run_phase_transitions, fun c ts a b => simCycles_transitions ts a b c.cycles.toNat c⟩

/-- C5: when the density total is zero the allocator sets both greens to
`min_green`, taking the early-return branch; in particular
`allocate(0, 0, 5, 40) = (5, 5)`. -/
theorem zero_density_gives_min_green (c : IntersectionController) (nsd ewd : Int)
    (h : nsd + ewd = 0) :
    (compute_and_set_green c nsd ewd).ns.green_duration = c.min_green ∧
    (compute_and_set_green c nsd ewd).ew.green_duration = c.min_green ∧
    allocate_spec 0 0 5 40 = (5, 5) := by
  have ht : nsd + ewd ≤ 0 := le_of_eq h
  simp only [compute_and_set_green, if_pos ht]
  refine ⟨?_, ?_, by decide⟩ <;> trivial

theorem zero_density_gives_min_green_witness :
    (compute_and_set_green (IntersectionController.make 5 40 3 1 1 false) 0 0).ns.green_duration
        = (IntersectionController.make 5 40 3 1 1 false).min_green ∧
    (compute_and_set_green (IntersectionController.make 5 40 3 1 1 false) 0 0).ew.green_duration
        = (IntersectionController.make 5 40 3 1 1 false).min_green ∧
    allocate_spec 0 0 5 40 = (5, 5) :=
  zero_density_gives_min_green (IntersectionController.make 5 40 3 1 1 false) 0 0 (by decide)

/-- C6: starting from both lights red, the per-state phase trace of a run
is, cycle by cycle, (RED,RED), (GREEN,RED), (YELLOW,RED), (RED,RED),
(RED,GREEN), (RED,YELLOW), (RED,RED): at no recorded point are both
directions simultaneously non-RED, and between the first direction going
RED and the second going GREEN (and again at the cycle end) there is an
all-red snapshot. -/
theorem never_both_nonred_with_allred_gap (c : IntersectionController) (ts : String)
    (a b : Int) (hns : c.ns.state = .RED) (hew : c.ew.state = .RED) :
    (simulate_with_inputs c ts a b).states.map (fun st => (st.ns.state, st.ew.state)) =
      List.flatten (List.replicate c.cycles.toNat
        [ ((.RED : LightState), (.RED : LightState)), (.GREEN, .RED), (.YELLOW, .RED)
        , (.RED, .RED), (.RED, .GREEN), (.RED, .YELLOW), (.RED, .RED) ]) ∧
    ∀ st ∈ (simulate_with_inputs c ts a b).states,
      st.ns.state = .RED ∨ st.ew.state = .RED := by
  have hmap : (simulate_with_inputs c ts a b).states.map
        (fun st => (st.ns.state, st.ew.state)) =
      List.flatten (List.replicate c.cycles.toNat
        [ ((.RED : LightState), (.RED : LightState)), (.GREEN, .RED), (.YELLOW, .RED)
        , (.RED, .RED), (.RED, .GREEN), (.RED, .YELLOW), (.RED, .RED) ]) :=
    simCycles_phases ts a b c.cycles.toNat c hns hew
  refine ⟨hmap, ?_⟩
  intro st hst
  have hpair : (st.ns.state, st.ew.state) ∈
      (simulate_with_inputs c ts a b).states.map (fun st => (st.ns.state, st.ew.state)) :=
    List.mem_map_of_mem _ hst
  rw [hmap] at hpair
  obtain ⟨l, hl, hmem⟩ := List.mem_flatten.mp hpair
  have hlblock := List.eq_of_mem_replicate hl
  subst hlblock
  simp only [List.mem_cons, List.not_mem_nil, or_false] at hmem
  rcases hmem with h' | h' | h' | h' | h' | h' | h' <;>
    rw [Prod.mk.injEq] at h' <;>
    first
      | exact Or.inl h'.1
      | exact Or.inr h'.2

theorem never_both_nonred_with_allred_gap_witness :
    (compute_and_set_green (IntersectionController.make 5 40 3 1 2 false) 10 20).ns.state = .RED ∨
    (compute_and_set_green (IntersectionController.make 5 40 3 1 2 false) 10 20).ew.state = .RED :=
  (never_both_nonred_with_allred_gap (IntersectionController.make 5 40 3 1 2 false) "" 10 20
      rfl rfl).2
    (compute_and_set_green (IntersectionController.make 5 40 3 1 2 false) 10 20)
    (by decide)

/-- C7: within a cycle (allocation then phase sequence), each of the six
transitions is followed by exactly one hand-off to the wait collaborator
carrying that phase's duration: the direction's computed green after
GREEN, the configured yellow_time after YELLOW, and all_red_time after
RED. -/
theorem wait_notified_once_per_transition (c : IntersectionController) (ts : String)
    (a b : Int) (hy : 0 ≤ c.yellow_time) (hr : 0 ≤ c.all_red_time)
    (h1 : c.ns.yellow_duration = c.yellow_time)
    (h2 : c.ew.yellow_duration = c.yellow_time) :
    (run_phase (compute_and_set_green c a b) ts).events.map SimEvent.skel =
      [ .inl (.NS, .GREEN), .inr (compute_and_set_green c a b).ns.green_duration
      , .inl (.NS, .YELLOW), .inr c.yellow_time
      , .inl (.NS, .RED), .inr c.all_red_time
      , .inl (.EW, .GREEN), .inr (compute_and_set_green c a b).ew.green_duration
      , .inl (.EW, .YELLOW), .inr c.yellow_time
      , .inl (.EW, .RED), .inr c.all_red_time ] := by
  have hy2 := compute_and_set_green_yellow c a b h1 h2
  have hart := (compute_and_set_green_config c a b).2.2.2.1
  simp only [run_phase, set_and_print, List.map_cons, List.map_nil, SimEvent.skel]
  rw [hy2.1, hy2.2, hart]

theorem wait_notified_once_per_transition_witness :
    (run_phase (compute_and_set_green (IntersectionController.make 5 40 3 1 1 false) 10 20) "").events.map
        SimEvent.skel =
      [ .inl (.NS, .GREEN)
      , .inr (compute_and_set_green (IntersectionController.make 5 40 3 1 1 false) 10 20).ns.green_duration
      , .inl (.NS, .YELLOW), .inr (IntersectionController.make 5 40 3 1 1 false).yellow_time
      , .inl (.NS, .RED), .inr (IntersectionController.make 5 40 3 1 1 false).all_red_time
      , .inl (.EW, .GREEN)
      , .inr (compute_and_set_green (IntersectionController.make 5 40 3 1 1 false) 10 20).ew.green_duration
      , .inl (.EW, .YELLOW), .inr (IntersectionController.make 5 40 3 1 1 false).yellow_time
      , .inl (.EW, .RED), .inr (IntersectionController.make 5 40 3 1 1 false).all_red_time ] :=
  wait_notified_once_per_transition (IntersectionController.make 5 40 3 1 1 false) "" 10 20
    (by decide) (by decide) rfl rfl

/-- C8: in a run started from a freshly constructed controller, both
lights' yellow durations equal the configured yellow_time at every
recorded point of the run and at its end: no allocation or phase step
changes them. -/
theorem yellow_duration_constant_across_run (minG maxG yellow allred cy : Int)
    (rt : Bool) (ts : String) (a b : Int) :
    (∀ st ∈ (simulate_with_inputs (IntersectionController.make minG maxG yellow allred cy rt) ts a b).states,
        st.ns.yellow_duration = yellow ∧ st.ew.yellow_duration = yellow) ∧
    (simulate_with_inputs (IntersectionController.make minG maxG yellow allred cy rt) ts a b).final.ns.yellow_duration
        = yellow ∧
    (simulate_with_inputs (IntersectionController.make minG maxG yellow allred cy rt) ts a b).final.ew.yellow_duration
        = yellow := by
  have h := simCycles_yellow ts a b
    (IntersectionController.make minG maxG yellow allred cy rt).cycles.toNat
    (IntersectionController.make minG maxG yellow allred cy rt) rfl rfl
  exact ⟨h.1, h.2.1, h.2.2.1⟩

theorem yellow_duration_constant_across_run_witness :
    (simulate_with_inputs (IntersectionController.make 5 40 3 1 2 false) "" 10 20).final.ns.yellow_duration
        = 3 ∧
    (simulate_with_inputs (IntersectionController.make 5 40 3 1 2 false) "" 10 20).final.ew.yellow_duration
        = 3 :=
  ⟨(yellow_duration_constant_across_run 5 40 3 1 2 false "" 10 20).2.1,
    (yellow_duration_constant_across_run 5 40 3 1 2 false "" 10 20).2.2⟩

/-- C9: every phase-transition log line emitted by a cycle has the form
`[HH:MM:SS] <direction> -> <PHASE> (will last <N>s)`, where N is the
light's green duration for GREEN and its yellow duration for YELLOW,
while RED prints "until other gets green" in place of the number. -/
theorem log_line_format (c : IntersectionController) (ts : String) :
    ∀ (d : Dir) (p : LightState) (l : String),
      SimEvent.trans d p l ∈ (run_phase c ts).events →
      l = "[" ++ ts ++ "] " ++ (dirLight d c).name ++ " -> "
          ++ TrafficLight.state_to_string p ++ " (will last "
          ++ (match p with
              | .GREEN => toString (dirLight d c).green_duration
              | .YELLOW => toString (dirLight d c).yellow_duration
              | .RED => "until other gets green")
          ++ "s)" := by
  intro d p l hmem
  simp only [run_phase, set_and_print, List.mem_cons, List.not_mem_nil, or_false,
    SimEvent.trans.injEq, reduceCtorEq, false_and, or_false, false_or] at hmem
  rcases hmem with h | h | h | h | h | h <;>
    obtain ⟨rfl, rfl, rfl⟩ := h <;>
    rfl

theorem log_line_format_witness :
    "[12:00:00] North-South -> GREEN (will last 10s)"
      = "[" ++ "12:00:00" ++ "] "
          ++ (dirLight .NS (IntersectionController.make 5 40 3 1 1 false)).name ++ " -> "
          ++ TrafficLight.state_to_string .GREEN ++ " (will last "
          ++ (match (.GREEN : LightState) with
              | .GREEN => toString (dirLight .NS (IntersectionController.make 5 40 3 1 1 false)).green_duration
              | .YELLOW => toString (dirLight .NS (IntersectionController.make 5 40 3 1 1 false)).yellow_duration
              | .RED => "until other gets green")
          ++ "s)" :=
  log_line_format (IntersectionController.make 5 40 3 1 1 false) "12:00:00" .NS .GREEN
    "[12:00:00] North-South -> GREEN (will last 10s)" (by decide)

/-- C10: a freshly constructed controller has both lights RED, and every
cycle (allocation then phase sequence) ends with both lights RED again,
whatever the densities and durations were. -/
theorem lights_red_at_cycle_boundaries (minG maxG yellow allred cy : Int)
    (rt : Bool) (c : IntersectionController) (ts : String) (a b : Int) :
    ((IntersectionController.make minG maxG yellow allred cy rt).ns.state = .RED ∧
      (IntersectionController.make minG maxG yellow allred cy rt).ew.state = .RED) ∧
    ((run_phase (compute_and_set_green c a b) ts).final.ns.state = .RED ∧
      (run_phase (compute_and_set_green c a b) ts).final.ew.state = .RED) :=
  ⟨⟨rfl, rfl⟩, run_phase_final_red _ _⟩

end TrafficSim
